import Mathlib

/-!
Verification development for the Synchronator Dropbox synchronizer
(`sync.py`).  The Python module is shallowly embedded below: the mutable
`DropboxState` object becomes an explicit record threaded through each
operation, filesystem effects become an explicit `FS` value, Dropbox API
effects are abstracted into a `Dbx` record of result oracles, and Python
exceptions become `Except PyErr`.  Each definition mirrors one Python
function of `sync.py` and is named after it.
-/

set_option autoImplicit false
set_option maxRecDepth 2000

namespace Synchronator

/-! ## Small string utilities

Python string primitives used by `sync.py` (`str.split('/')`,
`str.startswith`, `str.endswith`, slicing, `os.path.join`,
`os.path.dirname`), modelled structurally over `String.data` so that all
definitions compute by structural recursion. -/

/-- Helper for `splitSlash`: splits a character list at `'/'`. -/
def splitSlashAux : List Char → List Char → List (List Char)
  | [], acc => [acc.reverse]
  | c :: rest, acc =>
    if c = '/' then acc.reverse :: splitSlashAux rest []
    else splitSlashAux rest (c :: acc)

/-- Python `s.split('/')`. -/
def splitSlash (s : String) : List String :=
  (splitSlashAux s.data []).map (fun l => { data := l })

/-- Python `s.startswith(p)`. -/
def strStartsWith (s p : String) : Bool :=
  if s.data.take p.data.length = p.data then true else false

/-- Python `s.endswith(p)`. -/
def strEndsWith (s p : String) : Bool :=
  if s.data.drop (s.data.length - p.data.length) = p.data ∧ p.data.length ≤ s.data.length
  then true else false

/-- Python string slicing `s[n:]` (ASCII paths). -/
def strDrop (s : String) (n : Nat) : String :=
  { data := s.data.drop n }

/-- Joins path segments back with `'/'` (inverse of `splitSlash`). -/
def joinSegs : List String → String
  | [] => ""
  | [s] => s
  | s :: rest => s ++ "/" ++ joinSegs rest

/-- `os.path.join(a, b)` for POSIX paths as used in `sync.py`. -/
def pyJoin (a b : String) : String :=
  if a = "" then b
  else if strStartsWith b "/" then b
  else if strEndsWith a "/" then a ++ b
  else a ++ "/" ++ b

/-- `os.path.dirname(p)` for the normalized relative paths of `sync.py`
(no leading slash, no repeated slashes). -/
def dirname (p : String) : String :=
  joinSegs (splitSlash p).dropLast

/-- `sync.py` `delete_local`: `dir = os.path.dirname(path); if dir == '': dir = '.'`. -/
def parentDir (p : String) : String :=
  if dirname p = "" then "." else dirname p

/-! ## Association-list maps

Python `dict`s (`path_case_map`, `local_files`, `remote_files`) modelled
as association lists with first-match lookup. -/

/-- Python `m[k]` lookup returning `none` when the key is absent. -/
def lookupKey {α : Type} : List (String × α) → String → Option α
  | [], _ => none
  | e :: rest, k => if e.1 = k then some e.2 else lookupKey rest k

/-- Python `m[k] = v`. -/
def setKey {α : Type} : List (String × α) → String → α → List (String × α)
  | [], k, v => [(k, v)]
  | e :: rest, k, v => if e.1 = k then (k, v) :: rest else e :: setKey rest k v

/-- Python `del m[k]` (the key is assumed present by callers; see each
call site for the `KeyError` modelling). -/
def delAll {α : Type} : List (String × α) → String → List (String × α)
  | [], _ => []
  | e :: rest, k => if e.1 = k then delAll rest k else e :: delAll rest k

/-- Python `k in m`. -/
def containsKey {α : Type} (m : List (String × α)) (k : String) : Bool :=
  (lookupKey m k).isSome

/-- Python `list(m.keys())`. -/
def keysOf {α : Type} (m : List (String × α)) : List String :=
  m.map Prod.fst

theorem lookupKey_setKey_self {α : Type} (m : List (String × α)) (k : String) (v : α) :
    lookupKey (setKey m k v) k = some v := by
  induction m with
  | nil => simp [setKey, lookupKey]
  | cons e rest ih =>
    by_cases h : e.1 = k
    · simp [setKey, h, lookupKey]
    · simp [setKey, h, lookupKey, ih]

theorem lookupKey_setKey_ne {α : Type} (m : List (String × α)) (k k' : String) (v : α)
    (h : k' ≠ k) : lookupKey (setKey m k v) k' = lookupKey m k' := by
  have hk : k ≠ k' := Ne.symm h
  induction m with
  | nil => simp [setKey, lookupKey, hk]
  | cons e rest ih =>
    by_cases he : e.1 = k
    · subst he
      simp [setKey, lookupKey, hk]
    · rw [show setKey (e :: rest) k v = e :: setKey rest k v by simp [setKey, he]]
      by_cases he' : e.1 = k'
      · simp [lookupKey, he']
      · simp [lookupKey, he', ih]

theorem lookupKey_delAll_self {α : Type} (m : List (String × α)) (k : String) :
    lookupKey (delAll m k) k = none := by
  induction m with
  | nil => simp [delAll, lookupKey]
  | cons e rest ih =>
    by_cases h : e.1 = k
    · simp [delAll, h, ih]
    · simp [delAll, h, lookupKey, ih]

theorem lookupKey_delAll_ne {α : Type} (m : List (String × α)) (k k' : String)
    (h : k' ≠ k) : lookupKey (delAll m k) k' = lookupKey m k' := by
  have hk : k ≠ k' := Ne.symm h
  induction m with
  | nil => simp [delAll]
  | cons e rest ih =>
    by_cases he : e.1 = k
    · subst he
      simp [delAll, lookupKey, hk, ih]
    · simp [delAll, he, lookupKey, ih]

/-- Decidable equality for `Except`, needed to evaluate the embedded
operations at concrete inputs. -/
instance {ε α : Type} [DecidableEq ε] [DecidableEq α] : DecidableEq (Except ε α) :=
  fun a b =>
    match a, b with
    | .error x, .error y =>
      if h : x = y then .isTrue (congrArg Except.error h)
      else .isFalse (fun hh => h (Except.error.inj hh))
    | .ok x, .ok y =>
      if h : x = y then .isTrue (congrArg Except.ok h)
      else .isFalse (fun hh => h (Except.ok.inj hh))
    | .error _, .ok _ => .isFalse (fun hh => Except.noConfusion hh)
    | .ok _, .error _ => .isFalse (fun hh => Except.noConfusion hh)

theorem containsKey_eq_false_iff {α : Type} (m : List (String × α)) (k : String) :
    containsKey m k = false ↔ lookupKey m k = none := by
  unfold containsKey
  cases lookupKey m k <;> simp

theorem containsKey_eq_true_iff {α : Type} (m : List (String × α)) (k : String) :
    containsKey m k = true ↔ ∃ v, lookupKey m k = some v := by
  unfold containsKey
  cases lookupKey m k <;> simp

theorem containsKey_mem_keysOf {α : Type} (m : List (String × α)) (k : String)
    (h : containsKey m k = true) : k ∈ keysOf m := by
  induction m with
  | nil => simp [containsKey, lookupKey] at h
  | cons e rest ih =>
    by_cases he : e.1 = k
    · simp [keysOf, he]
    · simp [containsKey, lookupKey, he] at h
      simp [keysOf]
      right
      have := ih (by simpa [containsKey] using h)
      simpa [keysOf] using this

/-! ## Data model -/

/-- One file's sync metadata, the `meta = {'rev': ..., 'modified': ...}`
dict of `sync.py`. -/
structure FileRecord where
  rev : String
  modified : Int
  deriving DecidableEq, Repr

/-- The `DropboxState` class of `sync.py`: `path_case_map`,
`local_files`, `remote_files`. -/
structure DropboxState where
  path_case_map : List (String × String)
  local_files : List (String × FileRecord)
  remote_files : List (String × FileRecord)
  deriving DecidableEq, Repr

/-- The local filesystem, as far as `sync.py` observes it: which paths
exist as files and which as directories (the working directory is `"."`). -/
structure FS where
  files : List String
  dirs : List String
  deriving DecidableEq, Repr

/-- Removes every occurrence of `s` from a path list. -/
def removeAll : List String → String → List String
  | [], _ => []
  | e :: rest, s => if e = s then removeAll rest s else e :: removeAll rest s

/-- `os.path.exists p`. -/
def fsExists (fs : FS) (p : String) : Prop :=
  p ∈ fs.files ∨ p ∈ fs.dirs

instance (fs : FS) (p : String) : Decidable (fsExists fs p) := by
  unfold fsExists; infer_instance

/-- `os.listdir d`: the immediate children of directory `d`. -/
def listdirFS (fs : FS) (d : String) : List String :=
  (fs.files ++ fs.dirs).filter (fun e => if e ≠ d ∧ parentDir e = d then true else false)

/-- All the directory prefixes of `path` ( `a`, `a/b`, ... ). -/
def ancestorsOf (path : String) : List String :=
  let parts := splitSlash path
  (List.range parts.length).map (fun i => joinSegs (parts.take (i + 1)))

/-- `os.makedirs path`: creates `path` and its missing ancestors. -/
def makedirs (fs : FS) (path : String) : FS :=
  { fs with dirs := fs.dirs ++ (ancestorsOf path).filter (fun d => !(decide (fsExists fs d))) }

/-- Python exceptions surfaced by the embedded code. -/
inductive PyErr where
  | keyError
  | nameError
  | attributeError
  | osError
  deriving DecidableEq, Repr

/-- A Dropbox listing entry: `dropbox.files.FileMetadata` (with `name`,
`path_lower`, `rev`) or `dropbox.files.FolderMetadata` (with `name`,
`path_lower`). -/
inductive Entry where
  | file (name path_lower rev : String)
  | folder (name path_lower : String)
  deriving DecidableEq, Repr

/-- The Dropbox connection handle: the listing pages it will deliver and
oracles for the results of its transfer calls (`files_download_to_file`
revisions, upload revisions, `files_delete` success). -/
structure Dbx where
  listPages : List (List Entry)
  downloadRev : String → String
  uploadRev : String → String
  deleteOk : String → Bool

/-- `STATE_FILENAME = '.Synchronator_Dropbox_State'`. -/
def STATE_FILENAME : String := ".Synchronator_Dropbox_State"

/-! ## Transfer subsystem: `DropboxState.upload`

`sync.py` lines 151-196.  The Dropbox API calls an upload performs are
recorded as a trace; the opaque server-assigned session id is modelled
as `0`. -/

/-- The fixed chunk size `10000000` read by `local_fr.read(10000000)`. -/
def CHUNK_SIZE : Nat := 10000000

/-- The large-object threshold: `if size > 140000000`. -/
def LARGE_FILE_THRESHOLD : Nat := 140000000

/-- One Dropbox upload API call issued by `DropboxState.upload`:
`files_upload_session_start`, `files_upload_session_append_v2` (with its
`UploadSessionCursor(session_id, offset)`), `files_upload_session_finish`
(with its `CommitInfo(dest, WriteMode.overwrite, mute=True)`), or the
one-shot `files_upload`. -/
inductive UpCall where
  | sessionStart (len : Nat) (close : Bool)
  | sessionAppend (len : Nat) (sessionId : Option Nat) (offset : Nat) (close : Bool)
  | sessionFinish (len : Nat) (sessionId : Option Nat) (offset : Nat)
      (dest : String) (overwrite mute : Bool)
  | filesUpload (len : Nat) (dest : String) (overwrite mute : Bool)
  deriving DecidableEq, Repr

/-- The `while not close` loop of `DropboxState.upload` (lines 161-186).
`remaining` is what is left to read from the file, `offset` the bytes
sent so far (the code's `offset` variable), `sid` the session id
(`None` before `files_upload_session_start` returns).  Each iteration
has already read `data = min CHUNK_SIZE remaining` bytes; when that read
is short (`close`), the loop exits and `files_upload_session_finish` is
called with the short chunk and the current cursor. -/
def sessionRounds (path : String) : Nat → Nat → Option Nat → List UpCall
  | remaining, offset, sid =>
    let dataLen := min CHUNK_SIZE remaining
    if _h : dataLen < CHUNK_SIZE then
      [UpCall.sessionFinish dataLen sid offset (pyJoin "/" path) true true]
    else
      (match sid with
        | none => UpCall.sessionStart dataLen false
        | some s => UpCall.sessionAppend dataLen (some s) offset false)
        :: sessionRounds path (remaining - dataLen) (offset + dataLen) (some 0)
  termination_by remaining _ _ => remaining
  decreasing_by
    simp only [CHUNK_SIZE] at *
    omega

/-- The sequence of Dropbox API calls `DropboxState.upload` issues for a
file of `size` bytes at `path`: the chunked-session branch when
`size > 140000000`, the one-shot `files_upload` otherwise. -/
def uploadTrace (size : Nat) (path : String) : List UpCall :=
  if size > LARGE_FILE_THRESHOLD then sessionRounds path size 0 none
  else [UpCall.filesUpload size (pyJoin "/" path) true true]

/-- `DropboxState.upload(dbx, path)` state effect (lines 193-196): the
same `meta = {'rev': result.rev, 'modified': os.path.getmtime(path)}`
dict is stored under `path` in both `local_files` and `remote_files`.
`mt` is `os.path.getmtime`, `sizeOf` is `os.path.getsize`; the
remote-assigned revision comes from the `Dbx` oracle.  Returns the new
state together with the API-call trace. -/
def upload (gd : Dbx) (mt : String → Int) (sizeOf : String → Nat)
    (st : DropboxState) (path : String) : DropboxState × List UpCall :=
  let meta : FileRecord := { rev := gd.uploadRev path, modified := mt path }
  ({ st with
      local_files := setKey st.local_files path meta,
      remote_files := setKey st.remote_files path meta },
   uploadTrace (sizeOf path) path)

/-! ## `DropboxState.download_remote` (lines 109-120) -/

/-- `download_remote(dbx, path)`: creates the missing parent directory
chain, fetches the object to `path`, and stores the same
`{'rev': result.rev, 'modified': getmtime(path)}` record in both maps.
`mt` gives the local modification time observed right after the
download. -/
def download_remote (gd : Dbx) (mt : String → Int)
    (st : DropboxState) (fs : FS) (path : String) : DropboxState × FS :=
  let head := dirname path
  let fs1 := if head ≠ "" ∧ ¬ fsExists fs head then makedirs fs head else fs
  let fs2 := { fs1 with files := if path ∈ fs1.files then fs1.files else fs1.files ++ [path] }
  let meta : FileRecord := { rev := gd.downloadRev path, modified := mt path }
  ({ st with
      local_files := setKey st.local_files path meta,
      remote_files := setKey st.remote_files path meta },
   fs2)

/-! ## `DropboxState.delete_local` (lines 86-98) -/

/-- `delete_local(path)`: best-effort `os.remove(path)` (an `OSError`,
e.g. a missing file, is swallowed), `del` of the path from both maps
(a `KeyError` if a map lacks the key), then removal of the parent
directory if it exists and is now empty.  `os.listdir` on a
non-directory and `os.rmdir('.')` raise `OSError`s that the code does
not catch.  On an uncaught exception the run aborts, so the partially
mutated Python state is never observed by later model steps. -/
def delete_local (st : DropboxState) (fs : FS) (path : String) :
    Except PyErr (DropboxState × FS) :=
  let fs1 : FS := { fs with files := removeAll fs.files path }
  if containsKey st.local_files path then
    if containsKey st.remote_files path then
      let st1 : DropboxState :=
        { st with
            local_files := delAll st.local_files path,
            remote_files := delAll st.remote_files path }
      let dir := parentDir path
      if fsExists fs1 dir then
        if dir ∈ fs1.dirs then
          if (listdirFS fs1 dir).isEmpty then
            if dir = "." then
              -- os.rmdir('.') raises OSError (EINVAL)
              .error PyErr.osError
            else .ok (st1, { fs1 with dirs := removeAll fs1.dirs dir })
          else .ok (st1, fs1)
        else
          -- os.listdir on a file raises NotADirectoryError
          .error PyErr.osError
      else .ok (st1, fs1)
    else .error PyErr.keyError
  else .error PyErr.keyError

/-! ## `DropboxState.delete_remote` (lines 100-107) -/

/-- `delete_remote(dbx, path)`: `dbx.files_delete('/' + path)` then
`del` from both maps, all inside a bare `try/except` that reports and
swallows any failure (including a `KeyError` from the `del`s, in which
case the deletions performed before the raise persist). -/
def delete_remote (gd : Dbx) (st : DropboxState) (path : String) : DropboxState :=
  if gd.deleteOk path then
    if containsKey st.local_files path then
      let st1 := { st with local_files := delAll st.local_files path }
      if containsKey st1.remote_files path then
        { st1 with remote_files := delAll st1.remote_files path }
      else st1
    else st
  else st

/-! ## `DropboxState.make_local_dir` (lines 141-149) -/

/-- `make_local_dir(path)`: `os.makedirs` when nothing exists at `path`;
when a *file* occupies `path`, the code removes it, forgets its
`local_files` record, and then calls `os.makedir(path)` — a function
that does not exist in `os`, so this branch always raises
`AttributeError` (after a `KeyError` instead, when the file was not
tracked in `local_files`). -/
def make_local_dir (st : DropboxState) (fs : FS) (path : String) :
    Except PyErr (DropboxState × FS) :=
  if ¬ fsExists fs path then
    .ok (st, makedirs fs path)
  else if path ∈ fs.files then
    if containsKey st.local_files path then
      -- os.remove and the del happen, then os.makedir raises AttributeError
      .error PyErr.attributeError
    else .error PyErr.keyError
  else .ok (st, fs)

/-! ## `DropboxState.__process_remote_entries` (lines 198-227) -/

/-- The per-entry canonical-path resolution loop (lines 200-210):
walks the lower-cased segments, accumulating `path_key` (the lower-cased
prefix) and `entry_path` (the canonical path), mapping each segment
through `path_case_map` and falling back to the entry's display `name`
for unmapped segments.  Returns `(entry_path, path_key)`. -/
def resolveEntryPath (pcm : List (String × String)) (entryName pathLower : String) :
    String × String :=
  (splitSlash pathLower).foldl
    (fun acc p =>
      let pk := pyJoin acc.2 p
      match lookupKey pcm pk with
      | some canon => (pyJoin acc.1 canon, pk)
      | none => (pyJoin acc.1 entryName, pk))
    ("", "")

/-- Python set `add`, on a duplicate-free list model of
`current_remote_file_paths`. -/
def addSet (l : List String) (s : String) : List String :=
  if s ∈ l then l else l ++ [s]

/-- Processing of one listing entry by `__process_remote_entries`.

The Python body calls `self.download_remote(dbx, ...)` where `dbx` is
*not* a parameter of the method: it resolves to the module-global name
`dbx` (bound only by the `__main__` block).  `g` models that global:
`none` when the global name is unbound, in which case the call raises
`NameError`. -/
def processEntry (g : Option Dbx) (mt : String → Int)
    (st : DropboxState) (fs : FS) (cur : List String) :
    Entry → Except PyErr (DropboxState × FS × List String)
  | Entry.file name pl rev =>
    let ep := (resolveEntryPath st.path_case_map name (strDrop pl 1)).1
    match lookupKey st.local_files ep with
    | none =>
      match g with
      | none => .error PyErr.nameError
      | some gd =>
        let (st1, fs1) := download_remote gd mt st fs ep
        .ok (st1, fs1, addSet cur ep)
    | some m =>
      if rev ≠ m.rev then
        match g with
        | none => .error PyErr.nameError
        | some gd =>
          let (st1, fs1) := download_remote gd mt st fs ep
          .ok (st1, fs1, addSet cur ep)
      else .ok (st, fs, addSet cur ep)
  | Entry.folder name pl =>
    let r := resolveEntryPath st.path_case_map name (strDrop pl 1)
    let st1 := { st with path_case_map := setKey st.path_case_map r.2 name }
    if fsExists fs r.1 then .ok (st1, fs, cur)
    else
      match make_local_dir st1 fs r.1 with
      | .error e => .error e
      | .ok (st2, fs2) => .ok (st2, fs2, cur)

/-- `__process_remote_entries(entries, current_remote_file_paths)`:
folds `processEntry` over one page of entries. -/
def process_remote_entries (g : Option Dbx) (mt : String → Int) :
    List Entry → DropboxState → FS → List String →
    Except PyErr (DropboxState × FS × List String)
  | [], st, fs, cur => .ok (st, fs, cur)
  | e :: rest, st, fs, cur =>
    match processEntry g mt st fs cur e with
    | .error err => .error err
    | .ok (st1, fs1, cur1) => process_remote_entries g mt rest st1 fs1 cur1

/-! ## `DropboxState.execute_delta` (lines 122-139) -/

/-- The paging loop of `execute_delta`: each page of
`files_list_folder` / `files_list_folder_continue` is processed in
order until `has_more` is false. -/
def processPages (g : Option Dbx) (mt : String → Int) :
    List (List Entry) → DropboxState → FS → List String →
    Except PyErr (DropboxState × FS × List String)
  | [], st, fs, cur => .ok (st, fs, cur)
  | page :: rest, st, fs, cur =>
    match process_remote_entries g mt page st fs cur with
    | .error err => .error err
    | .ok (st1, fs1, cur1) => processPages g mt rest st1 fs1 cur1

/-- The remote-deletion loop of `execute_delta` (lines 132-139), over a
snapshot `keys` of `remote_files.keys()`: a path absent from the
current remote listing *and present in `local_files`* is deleted
locally. -/
def deletePhaseAux (cur : List String) :
    List String → DropboxState → FS → Except PyErr (DropboxState × FS)
  | [], st, fs => .ok (st, fs)
  | p :: rest, st, fs =>
    if p ∈ cur then deletePhaseAux cur rest st fs
    else if containsKey st.local_files p then
      match delete_local st fs p with
      | .error e => .error e
      | .ok (st1, fs1) => deletePhaseAux cur rest st1 fs1
    else deletePhaseAux cur rest st fs

/-- The remote-deletion phase of `execute_delta`, run after all listing
pages are consumed. -/
def deletePhase (cur : List String) (st : DropboxState) (fs : FS) :
    Except PyErr (DropboxState × FS) :=
  deletePhaseAux cur (keysOf st.remote_files) st fs

/-- `execute_delta(self, dbx)`: consumes all listing pages of the `dbx`
*argument*, then runs the remote-deletion phase.  Downloads triggered by
entry processing go through the module-global `dbx` name `g`, not the
argument (see `processEntry`). -/
def execute_delta (dbxArg : Dbx) (g : Option Dbx) (mt : String → Int)
    (st : DropboxState) (fs : FS) : Except PyErr (DropboxState × FS) :=
  match processPages g mt dbxArg.listPages st fs [] with
  | .error e => .error e
  | .ok (st1, fs1, cur) => deletePhase cur st1 fs1

/-! ## `DropboxState.check_state` (lines 80-84) -/

/-- `check_state(dbx, path)`: upload when the path is unknown remotely,
else upload when the on-disk mtime is newer than the recorded
`local_files[path]['modified']` — which raises `KeyError` when the path
is missing from `local_files`. -/
def check_state (gd : Dbx) (mt : String → Int) (sizeOf : String → Nat)
    (st : DropboxState) (path : String) :
    Except PyErr (DropboxState × List UpCall) :=
  if containsKey st.remote_files path then
    match lookupKey st.local_files path with
    | none => .error PyErr.keyError
    | some m =>
      if mt path > m.modified then .ok (upload gd mt sizeOf st path)
      else .ok (st, [])
  else .ok (upload gd mt sizeOf st path)

/-! ## `check_local` (lines 233-247) and the walk filters -/

/-- `valid_dir_for_upload(dir)` (lines 301-314), with `os.path.sep = '/'`. -/
def valid_dir_for_upload (dir : String) : Bool :=
  let path := splitSlash dir
  if 1 < path.length ∧
      (strStartsWith (path.getD 1 "") "site" = true ∨
        path.getD 1 "" = "temp" ∨ path.getD 1 "" = "Examples") then
    false
  else
    path.all (fun part => if part ≠ "." ∧ strStartsWith part "." = true then false else true)

/-- `valid_filename_for_upload(filename)` (lines 317-324). -/
def valid_filename_for_upload (filename : String) : Bool :=
  !((filename == STATE_FILENAME) ||
    strStartsWith filename "." ||
    strStartsWith filename "@" ||
    strEndsWith filename "~" ||
    strEndsWith filename ".pyc" ||
    strEndsWith filename ".pyo" ||
    strEndsWith filename "Thumbs.db")

/-- The walk loop of `check_local` (lines 236-240): from each
`(root, filenames)` pair of `os.walk('.')`, in order, the surviving
files `os.path.join(root, filename)[2:]`. -/
def buildFilelist : List (String × List String) → List String
  | [] => []
  | (root, fns) :: rest =>
    (if valid_dir_for_upload root then
        (fns.filter valid_filename_for_upload).map (fun fn => strDrop (pyJoin root fn) 2)
      else []) ++ buildFilelist rest

/-- The first loop of `check_local` (lines 241-242): `check_state` on
every walked path in order, accumulating the upload API calls issued. -/
def checkLocalFiles (gd : Dbx) (mt : String → Int) (sizeOf : String → Nat) :
    List String → DropboxState → Except PyErr (DropboxState × List UpCall)
  | [], st => .ok (st, [])
  | p :: rest, st =>
    match check_state gd mt sizeOf st p with
    | .error e => .error e
    | .ok (st1, tr1) =>
      match checkLocalFiles gd mt sizeOf rest st1 with
      | .error e => .error e
      | .ok (st2, tr2) => .ok (st2, tr1 ++ tr2)

/-- The second loop of `check_local` (lines 243-247): over a snapshot
`oldlist` of `local_files.keys()`, remote-delete every path missing
from the walk. -/
def checkDeletedLocal (gd : Dbx) (filelist : List String) :
    List String → DropboxState → DropboxState
  | [], st => st
  | f :: rest, st =>
    if f ∈ filelist then checkDeletedLocal gd filelist rest st
    else checkDeletedLocal gd filelist rest (delete_remote gd st f)

/-- `check_local(dbx, state)`: build the filtered walk list, run
`check_state` over it, then remote-delete the locally deleted paths. -/
def check_local (gd : Dbx) (mt : String → Int) (sizeOf : String → Nat)
    (walk : List (String × List String)) (st : DropboxState) :
    Except PyErr (DropboxState × List UpCall) :=
  match checkLocalFiles gd mt sizeOf (buildFilelist walk) st with
  | .error e => .error e
  | .ok (st1, tr) =>
    .ok (checkDeletedLocal gd (buildFilelist walk) (keysOf st1.local_files) st1, tr)

/-! ## Concrete sample values used by witnesses and counterexamples -/

/-- A fresh `DropboxState()` as built by `__init__`. -/
def emptyState : DropboxState := ⟨[], [], []⟩

/-- A sample Dropbox handle with no listing pages. -/
def sampleDbx : Dbx := ⟨[], fun _ => "r1", fun _ => "r1", fun _ => true⟩

/-- A Dropbox handle whose `files_delete` always fails. -/
def failDeleteDbx : Dbx := ⟨[], fun _ => "r1", fun _ => "r1", fun _ => false⟩

/-- A sample synced file record. -/
def recR1 : FileRecord := ⟨"r1", 0⟩

/-! ## C7 -/

/-- C7: immediately after a successful `download_remote` or `upload` of
`path`, `local_files[path]` and `remote_files[path]` hold the same
record: the remote-assigned revision returned by the transfer call and
the local modification timestamp taken at transfer time. -/
theorem synced_record_sharing (gd : Dbx) (mt : String → Int) (sizeOf : String → Nat)
    (st : DropboxState) (fs : FS) (path : String) :
    (lookupKey (download_remote gd mt st fs path).1.local_files path
        = some { rev := gd.downloadRev path, modified := mt path } ∧
      lookupKey (download_remote gd mt st fs path).1.remote_files path
        = lookupKey (download_remote gd mt st fs path).1.local_files path) ∧
    (lookupKey (upload gd mt sizeOf st path).1.local_files path
        = some { rev := gd.uploadRev path, modified := mt path } ∧
      lookupKey (upload gd mt sizeOf st path).1.remote_files path
        = lookupKey (upload gd mt sizeOf st path).1.local_files path) := by
  refine ⟨⟨?_, ?_⟩, ?_, ?_⟩ <;>
    simp [download_remote, upload, lookupKey_setKey_self]

/-! ## C10 -/

/-- C10: `check_state` assumes every key of `remote_files` is also a key
of `local_files`: when a path is tracked remotely but untracked locally
it raises `KeyError` (reading `local_files[path]['modified']`) instead
of uploading or skipping, and under the key-inclusion precondition it
never raises. -/
theorem check_state_requires_local_key :
    (∀ (gd : Dbx) (mt : String → Int) (sizeOf : String → Nat)
        (st : DropboxState) (path : String),
        containsKey st.remote_files path = true →
        containsKey st.local_files path = false →
        check_state gd mt sizeOf st path = .error PyErr.keyError) ∧
    (∀ (gd : Dbx) (mt : String → Int) (sizeOf : String → Nat)
        (st : DropboxState) (path : String),
        (∀ q, containsKey st.remote_files q = true → containsKey st.local_files q = true) →
        ∃ out, check_state gd mt sizeOf st path = .ok out) := by
  constructor
  · intro gd mt sizeOf st path hr hl
    have hnone : lookupKey st.local_files path = none :=
      (containsKey_eq_false_iff _ _).mp hl
    simp [check_state, hr, hnone]
  · intro gd mt sizeOf st path hpre
    by_cases hr : containsKey st.remote_files path = true
    · have hl := hpre path hr
      obtain ⟨m, hm⟩ := (containsKey_eq_true_iff _ _).mp hl
      by_cases hmt : mt path > m.modified
      · exact ⟨upload gd mt sizeOf st path, by simp [check_state, hr, hm, hmt]⟩
      · exact ⟨(st, []), by simp [check_state, hr, hm, hmt]⟩
    · exact ⟨upload gd mt sizeOf st path, by simp [check_state, hr]⟩

/-- Witness for C10 at concrete inputs. -/
theorem check_state_requires_local_key_witness :
    check_state sampleDbx (fun _ => 0) (fun _ => 3)
        { emptyState with remote_files := [("a", recR1)] } "a" = .error PyErr.keyError ∧
    ∃ out, check_state sampleDbx (fun _ => 0) (fun _ => 3) emptyState "a" = .ok out :=
  ⟨check_state_requires_local_key.1 sampleDbx (fun _ => 0) (fun _ => 3)
      { emptyState with remote_files := [("a", recR1)] } "a" (by decide) (by decide),
    check_state_requires_local_key.2 sampleDbx (fun _ => 0) (fun _ => 3) emptyState "a"
      (by intro q hq; simp [emptyState, containsKey, lookupKey] at hq)⟩

/-! ## C3 -/

/-- C3: when the remote delete call issued by `delete_remote` fails, the
path's entries in `local_files` and `remote_files` are left unchanged
(the whole state is), so the deletion is retried on the next run; the
records are dropped only when the remote delete call succeeds. -/
theorem remote_delete_failure_atomic :
    (∀ (gd : Dbx) (st : DropboxState) (path : String),
        gd.deleteOk path = false → delete_remote gd st path = st) ∧
    (∀ (gd : Dbx) (st : DropboxState) (path : String),
        (lookupKey (delete_remote gd st path).local_files path
            ≠ lookupKey st.local_files path ∨
          lookupKey (delete_remote gd st path).remote_files path
            ≠ lookupKey st.remote_files path) →
        gd.deleteOk path = true) := by
  constructor
  · intro gd st path h
    simp [delete_remote, h]
  · intro gd st path h
    by_cases hd : gd.deleteOk path = true
    · exact hd
    · rw [show delete_remote gd st path = st by
        simp [delete_remote, Bool.eq_false_iff.mpr hd]] at h
      rcases h with h | h <;> exact absurd rfl h

/-- Witness for C3: a failing delete leaves a concrete state unchanged. -/
theorem remote_delete_failure_atomic_witness :
    delete_remote failDeleteDbx
        { emptyState with local_files := [("a", recR1)], remote_files := [("a", recR1)] } "a"
      = { emptyState with local_files := [("a", recR1)], remote_files := [("a", recR1)] } :=
  remote_delete_failure_atomic.1 failDeleteDbx
    { emptyState with local_files := [("a", recR1)], remote_files := [("a", recR1)] } "a"
    (by decide)

/-! ## C5 -/

/-- C5: a remote folder entry with display name `Photos` and lower-cased
path `/photos`, followed by a file entry `/photos/img.png` with display
name `img.png`, is resolved by the remote pass to the canonical local
path `Photos/img.png`, which is what enters the current-remote-paths
set. -/
theorem case_resolution :
    (process_remote_entries (some sampleDbx) (fun _ => 0)
        [Entry.folder "Photos" "/photos", Entry.file "img.png" "/photos/img.png" "r1"]
        emptyState ⟨[], ["."]⟩ []).toOption.map (fun r => r.2.2)
      = some ["Photos/img.png"] := by decide

/-! ## C6 -/

/-- C6 (code bug): a remote folder entry whose resolved path is occupied
by a local *file* is expected to replace the file with a directory, but
the pass only calls `make_local_dir` when nothing exists at the path, so
the entry leaves the file on disk, keeps its `local_files` record and
creates no directory; and `make_local_dir`'s replacement branch itself
always raises (`os.makedir` does not exist, so Python raises
`AttributeError`). -/
theorem folder_over_local_file_bug :
    processEntry none (fun _ => 0)
        { emptyState with local_files := [("Photos", recR1)], remote_files := [("Photos", recR1)] }
        ⟨["Photos"], ["."]⟩ [] (Entry.folder "Photos" "/photos")
      = .ok ({ path_case_map := [("photos", "Photos")],
                local_files := [("Photos", recR1)],
                remote_files := [("Photos", recR1)] },
              ⟨["Photos"], ["."]⟩, []) ∧
    "Photos" ∈ (⟨["Photos"], ["."]⟩ : FS).files ∧
    ("Photos" ∉ (⟨["Photos"], ["."]⟩ : FS).dirs) ∧
    make_local_dir
        { path_case_map := [("photos", "Photos")],
          local_files := [("Photos", recR1)],
          remote_files := [("Photos", recR1)] }
        ⟨["Photos"], ["."]⟩ "Photos"
      = .error PyErr.attributeError := by
  refine ⟨by decide, by decide, by decide, by decide⟩

/-! ## C9 -/

/-- Does a file entry resolved to `ep` with revision `rev` trigger a
download in `__process_remote_entries`? (unknown locally, or known with
a different revision). -/
def needsDownload (st : DropboxState) (ep rev : String) : Bool :=
  match lookupKey st.local_files ep with
  | none => true
  | some m => !(rev == m.rev)

/-- C9: the remote pass's downloads go through the module-global name
`dbx`, not the `execute_delta` argument: the run's outcome is
independent of everything in the argument but its listing pages, and
when no global `dbx` is bound, processing a file entry that requires a
download raises `NameError` instead of downloading. -/
theorem remote_downloads_use_global_dbx :
    (∀ (d1 d2 : Dbx) (g : Option Dbx) (mt : String → Int)
        (st : DropboxState) (fs : FS),
        d1.listPages = d2.listPages →
        execute_delta d1 g mt st fs = execute_delta d2 g mt st fs) ∧
    (∀ (mt : String → Int) (st : DropboxState) (fs : FS) (cur : List String)
        (name pl rev : String),
        needsDownload st ((resolveEntryPath st.path_case_map name (strDrop pl 1)).1) rev = true →
        processEntry none mt st fs cur (Entry.file name pl rev)
          = .error PyErr.nameError) := by
  constructor
  · intro d1 d2 g mt st fs h
    simp only [execute_delta, h]
  · intro mt st fs cur name pl rev hneed
    unfold needsDownload at hneed
    unfold processEntry
    cases hl : lookupKey st.local_files
        ((resolveEntryPath st.path_case_map name (strDrop pl 1)).1) with
    | none => simp [hl]
    | some m =>
      rw [hl] at hneed
      have : rev ≠ m.rev := by simpa using hneed
      simp [hl, this]

/-- Witness for C9: two handles differing in every transfer oracle but
sharing (empty) listing pages produce the same run, and with no global
`dbx` a needed download raises `NameError`. -/
theorem remote_downloads_use_global_dbx_witness :
    execute_delta ⟨[], fun _ => "x", fun _ => "x", fun _ => true⟩ none (fun _ => 0)
        emptyState ⟨[], ["."]⟩
      = execute_delta ⟨[], fun _ => "y", fun _ => "y", fun _ => false⟩ none (fun _ => 0)
        emptyState ⟨[], ["."]⟩ ∧
    processEntry none (fun _ => 0) emptyState ⟨[], ["."]⟩ [] (Entry.file "a.txt" "/a.txt" "r1")
      = .error PyErr.nameError :=
  ⟨remote_downloads_use_global_dbx.1 ⟨[], fun _ => "x", fun _ => "x", fun _ => true⟩
      ⟨[], fun _ => "y", fun _ => "y", fun _ => false⟩ none (fun _ => 0)
      emptyState ⟨[], ["."]⟩ rfl,
    remote_downloads_use_global_dbx.2 (fun _ => 0) emptyState ⟨[], ["."]⟩ []
      "a.txt" "/a.txt" "r1" (by decide)⟩

/-! ## C1 -/

/-- C1 counterexample: a path (`"a"`) present in `remote_files`, absent
from the current remote listing, but untracked in `local_files`, is NOT
deleted by the remote pass: `execute_delta` leaves state and filesystem
unchanged and the `remote_files` record survives, contradicting the
claim that every such path's record is dropped from both maps. -/
theorem remote_deletion_skips_untracked :
    containsKey ({ emptyState with remote_files := [("a", recR1)] }).remote_files "a" = true ∧
    ("a" ∉ ([] : List String)) ∧
    execute_delta sampleDbx none (fun _ => 0)
        { emptyState with remote_files := [("a", recR1)] } ⟨["a"], ["."]⟩
      = .ok ({ emptyState with remote_files := [("a", recR1)] }, ⟨["a"], ["."]⟩) ∧
    lookupKey ({ emptyState with remote_files := [("a", recR1)] }).remote_files "a"
      = some recR1 := by
  refine ⟨by decide, by decide, by decide, by decide⟩

/-! ## C8 -/

/-- Every path selected by the walk loop of `check_local` comes from a
`(root, filenames)` pair whose root passed `valid_dir_for_upload` and a
filename that passed `valid_filename_for_upload`. -/
theorem mem_buildFilelist (walk : List (String × List String)) (p : String)
    (hp : p ∈ buildFilelist walk) :
    ∃ root fns f, (root, fns) ∈ walk ∧ f ∈ fns ∧ valid_dir_for_upload root = true ∧
      valid_filename_for_upload f = true ∧ p = strDrop (pyJoin root f) 2 := by
  induction walk with
  | nil => simp [buildFilelist] at hp
  | cons hd rest ih =>
    obtain ⟨root, fns⟩ := hd
    rw [buildFilelist, List.mem_append] at hp
    rcases hp with hp | hp
    · by_cases hv : valid_dir_for_upload root = true
      · rw [if_pos hv] at hp
        rw [List.mem_map] at hp
        obtain ⟨f, hf, hfp⟩ := hp
        rw [List.mem_filter] at hf
        exact ⟨root, fns, f, by simp, hf.1, hv, hf.2, hfp.symm⟩
      · rw [if_neg hv] at hp
        simp at hp
    · obtain ⟨root0, fns0, f, hmem, h2, h3, h4, h5⟩ := ih hp
      exact ⟨root0, fns0, f, List.mem_cons_of_mem _ hmem, h2, h3, h4, h5⟩

/-- C8: a file whose name equals the state-file name, starts with `.`,
starts with `@`, ends with `~`, or ends with `.pyc` fails
`valid_filename_for_upload`, and every path the local walk selects for
upload passed that filter, so such a file is never selected. -/
theorem upload_exclusion_filters (fn : String)
    (hbad : fn = STATE_FILENAME ∨ strStartsWith fn "." = true ∨
      strStartsWith fn "@" = true ∨ strEndsWith fn "~" = true ∨
      strEndsWith fn ".pyc" = true) :
    valid_filename_for_upload fn = false ∧
    ∀ (walk : List (String × List String)) (p : String), p ∈ buildFilelist walk →
      ∃ root fns f, (root, fns) ∈ walk ∧ f ∈ fns ∧ valid_dir_for_upload root = true ∧
        valid_filename_for_upload f = true ∧ p = strDrop (pyJoin root f) 2 := by
  constructor
  · unfold valid_filename_for_upload
    rcases hbad with h | h | h | h | h <;> simp [h]
  · intro walk p hp
    exact mem_buildFilelist walk p hp

/-- Witness for C8 at the concrete walk `[('.', ['.hidden', 'ok.txt'])]`. -/
theorem upload_exclusion_filters_witness :
    valid_filename_for_upload ".hidden" = false ∧
    ∃ root fns f, (root, fns) ∈ [(".", [".hidden", "ok.txt"])] ∧ f ∈ fns ∧
      valid_dir_for_upload root = true ∧ valid_filename_for_upload f = true ∧
      "ok.txt" = strDrop (pyJoin root f) 2 :=
  ⟨(upload_exclusion_filters ".hidden" (Or.inr (Or.inl (by decide)))).1,
    (upload_exclusion_filters ".hidden" (Or.inr (Or.inl (by decide)))).2
      [(".", [".hidden", "ok.txt"])] "ok.txt" (by decide)⟩

/-! ## C2 -/

theorem sessionRounds_small (path : String) (remaining offset : Nat) (sid : Option Nat)
    (h : remaining < CHUNK_SIZE) :
    sessionRounds path remaining offset sid
      = [UpCall.sessionFinish remaining sid offset (pyJoin "/" path) true true] := by
  rw [sessionRounds.eq_def]
  have hm : min CHUNK_SIZE remaining = remaining := min_eq_right (Nat.le_of_lt h)
  simp only [hm]
  rw [dif_pos h]

theorem sessionRounds_step (path : String) (remaining offset : Nat) (sid : Option Nat)
    (h : CHUNK_SIZE ≤ remaining) :
    sessionRounds path remaining offset sid
      = (match sid with
          | none => UpCall.sessionStart CHUNK_SIZE false
          | some s => UpCall.sessionAppend CHUNK_SIZE (some s) offset false)
        :: sessionRounds path (remaining - CHUNK_SIZE) (offset + CHUNK_SIZE) (some 0) := by
  rw [sessionRounds.eq_def]
  have hm : min CHUNK_SIZE remaining = CHUNK_SIZE := min_eq_left h
  simp only [hm]
  rw [dif_neg (lt_irrefl CHUNK_SIZE)]

/-- The appends-then-finish shape of the chunked-session loop, once a
session is open: `m` full chunks are appended at cursor offsets
`offset, offset + CHUNK, ...`, then the short final chunk `r` is sent
with the finish call at cursor offset `offset + CHUNK * m`. -/
theorem sessionRounds_appends (path : String) (m : Nat) (r : Nat) (hr : r < CHUNK_SIZE) :
    ∀ offset : Nat,
    sessionRounds path (CHUNK_SIZE * m + r) offset (some 0)
      = ((List.range m).map fun i =>
            UpCall.sessionAppend CHUNK_SIZE (some 0) (offset + CHUNK_SIZE * i) false)
        ++ [UpCall.sessionFinish r (some 0) (offset + CHUNK_SIZE * m)
              (pyJoin "/" path) true true] := by
  induction m with
  | zero =>
    intro offset
    simp only [Nat.mul_zero, Nat.zero_add, List.range_zero, List.map_nil, List.nil_append]
    exact sessionRounds_small path r offset (some 0) hr
  | succ k ih =>
    intro offset
    have hge : CHUNK_SIZE ≤ CHUNK_SIZE * (k + 1) + r := by
      calc CHUNK_SIZE = CHUNK_SIZE * 1 := (Nat.mul_one _).symm
        _ ≤ CHUNK_SIZE * (k + 1) := Nat.mul_le_mul_left _ (by omega)
        _ ≤ CHUNK_SIZE * (k + 1) + r := Nat.le_add_right _ _
    rw [sessionRounds_step path _ offset (some 0) hge]
    have hsub : CHUNK_SIZE * (k + 1) + r - CHUNK_SIZE = CHUNK_SIZE * k + r := by
      have : CHUNK_SIZE * (k + 1) = CHUNK_SIZE * k + CHUNK_SIZE := by ring
      omega
    rw [hsub, ih (offset + CHUNK_SIZE)]
    rw [List.range_succ_eq_map, List.map_cons, List.map_map, List.cons_append]
    have hfun : ((fun i => UpCall.sessionAppend CHUNK_SIZE (some 0) (offset + CHUNK_SIZE * i) false)
          ∘ Nat.succ)
        = (fun i => UpCall.sessionAppend CHUNK_SIZE (some 0)
            (offset + CHUNK_SIZE + CHUNK_SIZE * i) false) := by
      funext i
      simp only [Function.comp_apply, Nat.succ_eq_add_one]
      have harith : offset + CHUNK_SIZE * (i + 1) = offset + CHUNK_SIZE + CHUNK_SIZE * i := by
        ring
      rw [harith]
    rw [hfun]
    have h0 : offset + CHUNK_SIZE * 0 = offset := by ring
    rw [h0]
    have hfin : offset + CHUNK_SIZE * (k + 1) = offset + CHUNK_SIZE + CHUNK_SIZE * k := by
      ring
    rw [hfin]

/-- C2: `DropboxState.upload` of a file of `size` bytes performs, when
`size` exceeds the 140,000,000-byte threshold, a chunked session
transfer — a session-start call with the first 10,000,000-byte chunk,
appends of full chunks against cursors whose offsets are the bytes sent
so far (multiples of the chunk size), and a session-finish call whose
final chunk is strictly shorter than the chunk size, the appended bytes
before it summing to `CHUNK_SIZE * (k + 1)`; and when
`size ≤ 140,000,000` (the threshold included), a single one-shot
`files_upload` with overwrite semantics. -/
theorem large_file_chunking (size : Nat) (path : String) :
    (size > LARGE_FILE_THRESHOLD →
      ∃ k r, r < CHUNK_SIZE ∧ size = CHUNK_SIZE * (k + 1) + r ∧
        uploadTrace size path
          = UpCall.sessionStart CHUNK_SIZE false
            :: (((List.range k).map fun i =>
                  UpCall.sessionAppend CHUNK_SIZE (some 0) (CHUNK_SIZE * (i + 1)) false)
              ++ [UpCall.sessionFinish r (some 0) (CHUNK_SIZE * (k + 1))
                    (pyJoin "/" path) true true])) ∧
    (size ≤ LARGE_FILE_THRESHOLD →
      uploadTrace size path = [UpCall.filesUpload size (pyJoin "/" path) true true]) := by
  constructor
  · intro hs
    have hchunk : (0 : Nat) < CHUNK_SIZE := by norm_num [CHUNK_SIZE]
    have hmod := Nat.div_add_mod size CHUNK_SIZE
    have hrlt : size % CHUNK_SIZE < CHUNK_SIZE := Nat.mod_lt _ hchunk
    have hge : CHUNK_SIZE ≤ size := by
      have h1 : CHUNK_SIZE ≤ LARGE_FILE_THRESHOLD := by
        norm_num [CHUNK_SIZE, LARGE_FILE_THRESHOLD]
      omega
    have hq : 1 ≤ size / CHUNK_SIZE := by
      rw [Nat.le_div_iff_mul_le hchunk]
      omega
    have hcan : size / CHUNK_SIZE - 1 + 1 = size / CHUNK_SIZE := Nat.sub_add_cancel hq
    have hsplit : CHUNK_SIZE * (size / CHUNK_SIZE)
        = CHUNK_SIZE * (size / CHUNK_SIZE - 1) + CHUNK_SIZE := by
      conv_lhs => rw [← hcan]
      ring
    refine ⟨size / CHUNK_SIZE - 1, size % CHUNK_SIZE, hrlt, ?_, ?_⟩
    · rw [hcan]
      omega
    · unfold uploadTrace
      rw [if_pos hs]
      rw [sessionRounds_step path size 0 none hge]
      have hsub : size - CHUNK_SIZE
          = CHUNK_SIZE * (size / CHUNK_SIZE - 1) + size % CHUNK_SIZE := by
        rw [hsplit] at hmod
        omega
      rw [hsub,
        sessionRounds_appends path (size / CHUNK_SIZE - 1) (size % CHUNK_SIZE) hrlt
          (0 + CHUNK_SIZE)]
      simp only [Nat.zero_add]
      have hfun : (fun i => UpCall.sessionAppend CHUNK_SIZE (some 0)
            (CHUNK_SIZE * (i + 1)) false)
          = (fun i => UpCall.sessionAppend CHUNK_SIZE (some 0)
              (CHUNK_SIZE + CHUNK_SIZE * i) false) := by
        funext i
        have harith : CHUNK_SIZE * (i + 1) = CHUNK_SIZE + CHUNK_SIZE * i := by ring
        rw [harith]
      rw [hfun]
      have hfin : CHUNK_SIZE * (size / CHUNK_SIZE - 1 + 1)
          = CHUNK_SIZE + CHUNK_SIZE * (size / CHUNK_SIZE - 1) := by ring
      rw [hfin]
  · intro hs
    unfold uploadTrace
    rw [if_neg (by omega)]

/-- Witness for C2 at sizes `threshold + 1` and exactly `threshold`. -/
theorem large_file_chunking_witness :
    (∃ k r, r < CHUNK_SIZE ∧ 140000001 = CHUNK_SIZE * (k + 1) + r ∧
      uploadTrace 140000001 "big.bin"
        = UpCall.sessionStart CHUNK_SIZE false
          :: (((List.range k).map fun i =>
                UpCall.sessionAppend CHUNK_SIZE (some 0) (CHUNK_SIZE * (i + 1)) false)
            ++ [UpCall.sessionFinish r (some 0) (CHUNK_SIZE * (k + 1))
                  (pyJoin "/" "big.bin") true true])) ∧
    uploadTrace 140000000 "big.bin"
      = [UpCall.filesUpload 140000000 (pyJoin "/" "big.bin") true true] :=
  ⟨(large_file_chunking 140000001 "big.bin").1 (by norm_num [LARGE_FILE_THRESHOLD]),
    (large_file_chunking 140000000 "big.bin").2 (by norm_num [LARGE_FILE_THRESHOLD])⟩

/-! ## C4 -/

/-- Unpacks `Except.ok (a1, b1) = Except.ok (a2, b2)`. -/
theorem ok_pair_inj {ε α β : Type} {a1 a2 : α} {b1 b2 : β}
    (h : (Except.ok (a1, b1) : Except ε (α × β)) = .ok (a2, b2)) :
    a1 = a2 ∧ b1 = b2 := by
  injection h with h2
  exact ⟨congrArg Prod.fst h2, congrArg Prod.snd h2⟩

/-- A path the local pass considers up to date: tracked remotely, and
tracked locally with a recorded `modified` at least the on-disk mtime. -/
def Synced (mt : String → Int) (st : DropboxState) (p : String) : Prop :=
  containsKey st.remote_files p = true ∧
    ∃ m, lookupKey st.local_files p = some m ∧ ¬ mt p > m.modified

theorem synced_congr (mt : String → Int) (st st' : DropboxState) (p : String)
    (hl : lookupKey st'.local_files p = lookupKey st.local_files p)
    (hr : lookupKey st'.remote_files p = lookupKey st.remote_files p)
    (h : Synced mt st p) : Synced mt st' p := by
  obtain ⟨h1, m, h2, h3⟩ := h
  refine ⟨?_, m, ?_, h3⟩
  · unfold containsKey
    rw [hr]
    exact h1
  · rw [hl]
    exact h2

/-- A successful `check_state` leaves its path synced and does not touch
any other path's records. -/
theorem check_state_ok_synced (gd : Dbx) (mt : String → Int) (sizeOf : String → Nat)
    (st : DropboxState) (p : String) (st' : DropboxState) (tr : List UpCall)
    (h : check_state gd mt sizeOf st p = .ok (st', tr)) :
    Synced mt st' p ∧
      ∀ q, q ≠ p →
        lookupKey st'.local_files q = lookupKey st.local_files q ∧
        lookupKey st'.remote_files q = lookupKey st.remote_files q := by
  unfold check_state at h
  by_cases hr : containsKey st.remote_files p = true
  · rw [if_pos hr] at h
    cases hm : lookupKey st.local_files p with
    | none =>
      rw [hm] at h
      exact absurd h (by simp)
    | some m =>
      rw [hm] at h
      dsimp only at h
      by_cases hmt : mt p > m.modified
      · rw [if_pos hmt] at h
        have hst : st' = (upload gd mt sizeOf st p).1 := by
          rw [Except.ok.inj h]
        subst hst
        constructor
        · refine ⟨?_, ⟨gd.uploadRev p, mt p⟩, ?_, ?_⟩
          · unfold containsKey
            simp [upload, lookupKey_setKey_self]
          · simp [upload, lookupKey_setKey_self]
          · simp
        · intro q hq
          constructor <;> simp [upload, lookupKey_setKey_ne _ _ _ _ hq]
      · rw [if_neg hmt] at h
        have hst : st' = st := ((ok_pair_inj h).1).symm
        subst hst
        exact ⟨⟨hr, m, hm, hmt⟩, fun q _ => ⟨rfl, rfl⟩⟩
  · rw [if_neg hr] at h
    have hst : st' = (upload gd mt sizeOf st p).1 := by
      rw [Except.ok.inj h]
    subst hst
    constructor
    · refine ⟨?_, ⟨gd.uploadRev p, mt p⟩, ?_, ?_⟩
      · unfold containsKey
        simp [upload, lookupKey_setKey_self]
      · simp [upload, lookupKey_setKey_self]
      · simp
    · intro q hq
      constructor <;> simp [upload, lookupKey_setKey_ne _ _ _ _ hq]

/-- `check_state` on an already-synced path is a no-op that uploads
nothing. -/
theorem check_state_of_synced (gd : Dbx) (mt : String → Int) (sizeOf : String → Nat)
    (st : DropboxState) (p : String) (h : Synced mt st p) :
    check_state gd mt sizeOf st p = .ok (st, []) := by
  obtain ⟨h1, m, h2, h3⟩ := h
  unfold check_state
  rw [if_pos h1, h2]
  dsimp only
  rw [if_neg h3]

/-- The `check_state` loop preserves syncedness of any path. -/
theorem checkLocalFiles_preserves_synced (gd : Dbx) (mt : String → Int)
    (sizeOf : String → Nat) (l : List String) :
    ∀ (st st' : DropboxState) (tr : List UpCall),
      checkLocalFiles gd mt sizeOf l st = .ok (st', tr) →
      ∀ p, Synced mt st p → Synced mt st' p := by
  induction l with
  | nil =>
    intro st st' tr h p hp
    unfold checkLocalFiles at h
    have hst : st = st' := (ok_pair_inj h).1
    exact hst ▸ hp
  | cons q rest ih =>
    intro st st' tr h p hp
    unfold checkLocalFiles at h
    cases hcs : check_state gd mt sizeOf st q with
    | error e =>
      rw [hcs] at h
      exact absurd h (by simp)
    | ok out1 =>
      obtain ⟨st1, tr1⟩ := out1
      rw [hcs] at h
      dsimp only at h
      cases hrest : checkLocalFiles gd mt sizeOf rest st1 with
      | error e =>
        rw [hrest] at h
        exact absurd h (by simp)
      | ok out2 =>
        obtain ⟨st2, tr2⟩ := out2
        rw [hrest] at h
        dsimp only at h
        have hst : st' = st2 := ((ok_pair_inj h).1).symm
        subst hst
        have hcsfacts := check_state_ok_synced gd mt sizeOf st q st1 tr1 hcs
        by_cases hpq : p = q
        · subst hpq
          exact ih st1 st' tr2 hrest p hcsfacts.1
        · have hpres := hcsfacts.2 p hpq
          exact ih st1 st' tr2 hrest p
            (synced_congr mt st st1 p hpres.1 hpres.2 hp)

/-- After a successful `check_state` loop, every processed path is
synced. -/
theorem checkLocalFiles_all_synced (gd : Dbx) (mt : String → Int)
    (sizeOf : String → Nat) (l : List String) :
    ∀ (st st' : DropboxState) (tr : List UpCall),
      checkLocalFiles gd mt sizeOf l st = .ok (st', tr) →
      ∀ p ∈ l, Synced mt st' p := by
  induction l with
  | nil =>
    intro st st' tr _ p hp
    simp at hp
  | cons q rest ih =>
    intro st st' tr h p hp
    unfold checkLocalFiles at h
    cases hcs : check_state gd mt sizeOf st q with
    | error e =>
      rw [hcs] at h
      exact absurd h (by simp)
    | ok out1 =>
      obtain ⟨st1, tr1⟩ := out1
      rw [hcs] at h
      dsimp only at h
      cases hrest : checkLocalFiles gd mt sizeOf rest st1 with
      | error e =>
        rw [hrest] at h
        exact absurd h (by simp)
      | ok out2 =>
        obtain ⟨st2, tr2⟩ := out2
        rw [hrest] at h
        dsimp only at h
        have hst : st' = st2 := ((ok_pair_inj h).1).symm
        subst hst
        have hcsfacts := check_state_ok_synced gd mt sizeOf st q st1 tr1 hcs
        rcases List.mem_cons.mp hp with hpq | hprest
        · subst hpq
          exact checkLocalFiles_preserves_synced gd mt sizeOf rest st1 st' tr2 hrest p
            hcsfacts.1
        · exact ih st1 st' tr2 hrest p hprest

/-- A `check_state` loop over only-synced paths changes nothing and
uploads nothing. -/
theorem checkLocalFiles_of_synced (gd : Dbx) (mt : String → Int)
    (sizeOf : String → Nat) (l : List String) (st : DropboxState)
    (h : ∀ p ∈ l, Synced mt st p) :
    checkLocalFiles gd mt sizeOf l st = .ok (st, []) := by
  induction l with
  | nil => rfl
  | cons q rest ih =>
    unfold checkLocalFiles
    rw [check_state_of_synced gd mt sizeOf st q (h q (by simp))]
    dsimp only
    rw [ih (fun p hp => h p (List.mem_cons_of_mem _ hp))]
    rfl

/-- `delete_remote` of `f` does not touch any other path's records. -/
theorem delete_remote_preserves (gd : Dbx) (st : DropboxState) (f q : String)
    (h : q ≠ f) :
    lookupKey (delete_remote gd st f).local_files q = lookupKey st.local_files q ∧
    lookupKey (delete_remote gd st f).remote_files q = lookupKey st.remote_files q := by
  unfold delete_remote
  by_cases h1 : gd.deleteOk f = true
  · rw [if_pos h1]
    by_cases h2 : containsKey st.local_files f = true
    · rw [if_pos h2]
      dsimp only
      by_cases h3 : containsKey st.remote_files f = true
      · rw [if_pos h3]
        exact ⟨lookupKey_delAll_ne _ _ _ h, lookupKey_delAll_ne _ _ _ h⟩
      · rw [if_neg h3]
        exact ⟨lookupKey_delAll_ne _ _ _ h, rfl⟩
    · rw [if_neg h2]
      exact ⟨rfl, rfl⟩
  · rw [if_neg h1]
    exact ⟨rfl, rfl⟩

/-- The deleted-locally loop does not touch the records of any walked
path. -/
theorem checkDeletedLocal_preserves (gd : Dbx) (filelist : List String) :
    ∀ (old : List String) (st : DropboxState) (p : String), p ∈ filelist →
      lookupKey (checkDeletedLocal gd filelist old st).local_files p
          = lookupKey st.local_files p ∧
        lookupKey (checkDeletedLocal gd filelist old st).remote_files p
          = lookupKey st.remote_files p := by
  intro old
  induction old with
  | nil => intro st p _; exact ⟨rfl, rfl⟩
  | cons f rest ih =>
    intro st p hp
    unfold checkDeletedLocal
    by_cases hf : f ∈ filelist
    · rw [if_pos hf]
      exact ih st p hp
    · rw [if_neg hf]
      have hfp : p ≠ f := fun hh => hf (hh ▸ hp)
      have h1 := delete_remote_preserves gd st f p hfp
      have h2 := ih (delete_remote gd st f) p hp
      exact ⟨h2.1.trans h1.1, h2.2.trans h1.2⟩

/-- C4: running the local reconciliation pass a second time, with no
intervening filesystem change (same walk, same mtimes), performs no
upload, and every walked (synchronized) path keeps the same stored
revision and modifiedAt as after the first pass. -/
theorem local_pass_idempotent (gd1 gd2 : Dbx) (mt : String → Int)
    (s1 s2 : String → Nat) (walk : List (String × List String))
    (st st1 : DropboxState) (tr1 : List UpCall)
    (h : check_local gd1 mt s1 walk st = .ok (st1, tr1)) :
    ∃ st2, check_local gd2 mt s2 walk st1 = .ok (st2, []) ∧
      ∀ p ∈ buildFilelist walk,
        lookupKey st2.local_files p = lookupKey st1.local_files p ∧
        lookupKey st2.remote_files p = lookupKey st1.remote_files p := by
  unfold check_local at h
  cases hcl : checkLocalFiles gd1 mt s1 (buildFilelist walk) st with
  | error e =>
    rw [hcl] at h
    exact absurd h (by simp)
  | ok out =>
    obtain ⟨stA, trA⟩ := out
    rw [hcl] at h
    have hst1 : st1
        = checkDeletedLocal gd1 (buildFilelist walk) (keysOf stA.local_files) stA :=
      ((ok_pair_inj h).1).symm
    have hsyncedA : ∀ p ∈ buildFilelist walk, Synced mt stA p :=
      checkLocalFiles_all_synced gd1 mt s1 (buildFilelist walk) st stA trA hcl
    have hsynced1 : ∀ p ∈ buildFilelist walk, Synced mt st1 p := by
      intro p hp
      have hpres := checkDeletedLocal_preserves gd1 (buildFilelist walk)
        (keysOf stA.local_files) stA p hp
      rw [hst1]
      exact synced_congr mt stA _ p hpres.1 hpres.2 (hsyncedA p hp)
    have hrun2 : checkLocalFiles gd2 mt s2 (buildFilelist walk) st1 = .ok (st1, []) :=
      checkLocalFiles_of_synced gd2 mt s2 (buildFilelist walk) st1 hsynced1
    refine ⟨checkDeletedLocal gd2 (buildFilelist walk) (keysOf st1.local_files) st1,
      ?_, ?_⟩
    · unfold check_local
      rw [hrun2]
    · intro p hp
      exact checkDeletedLocal_preserves gd2 (buildFilelist walk)
        (keysOf st1.local_files) st1 p hp

/-- Witness for C4: a one-file tree whose first pass uploaded `a.txt`. -/
theorem local_pass_idempotent_witness :
    ∃ st2, check_local sampleDbx (fun _ => 0) (fun _ => 3) [(".", ["a.txt"])]
          { emptyState with
              local_files := [("a.txt", recR1)], remote_files := [("a.txt", recR1)] }
        = .ok (st2, []) ∧
      ∀ p ∈ buildFilelist [(".", ["a.txt"])],
        lookupKey st2.local_files p
            = lookupKey ({ emptyState with
                local_files := [("a.txt", recR1)],
                remote_files := [("a.txt", recR1)] }).local_files p ∧
          lookupKey st2.remote_files p
            = lookupKey ({ emptyState with
                local_files := [("a.txt", recR1)],
                remote_files := [("a.txt", recR1)] }).remote_files p :=
  local_pass_idempotent sampleDbx sampleDbx (fun _ => 0) (fun _ => 3) (fun _ => 3)
    [(".", ["a.txt"])] emptyState
    { emptyState with
        local_files := [("a.txt", recR1)], remote_files := [("a.txt", recR1)] }
    [UpCall.filesUpload 3 "/a.txt" true true] (by decide)

/-! ## C1 (amended): supporting lemmas -/

theorem not_mem_removeAll (l : List String) (s : String) : s ∉ removeAll l s := by
  induction l with
  | nil => simp [removeAll]
  | cons e rest ih =>
    by_cases he : e = s
    · simp [removeAll, he, ih]
    · simp [removeAll, he, ih, Ne.symm he]

theorem mem_removeAll_of_ne (l : List String) (s d : String) (hne : d ≠ s) (hd : d ∈ l) :
    d ∈ removeAll l s := by
  induction l with
  | nil => simp at hd
  | cons e rest ih =>
    rcases List.mem_cons.mp hd with hde | hdr
    · subst hde
      simp [removeAll, hne]
    · by_cases he : e = s
      · simp [removeAll, he, ih hdr]
      · simp [removeAll, he, ih hdr]

theorem mem_of_mem_removeAll (l : List String) (s d : String) (h : d ∈ removeAll l s) :
    d ∈ l := by
  induction l with
  | nil => simp [removeAll] at h
  | cons e rest ih =>
    by_cases he : e = s
    · rw [removeAll, if_pos he] at h
      exact List.mem_cons_of_mem _ (ih h)
    · rw [removeAll, if_neg he] at h
      rcases List.mem_cons.mp h with hde | hdr
      · exact hde ▸ List.mem_cons_self _ _
      · exact List.mem_cons_of_mem _ (ih hdr)

theorem removeAll_idem (l : List String) (s : String) :
    removeAll (removeAll l s) s = removeAll l s := by
  induction l with
  | nil => rfl
  | cons e rest ih =>
    by_cases he : e = s
    · rw [removeAll, if_pos he, ih]
    · rw [removeAll, if_neg he, removeAll, if_neg he, ih]

theorem lookupKey_delAll_none {α : Type} (m : List (String × α)) (k p : String)
    (h : lookupKey m p = none) : lookupKey (delAll m k) p = none := by
  by_cases hpk : p = k
  · subst hpk
    exact lookupKey_delAll_self m p
  · rw [lookupKey_delAll_ne m k p hpk]
    exact h

/-- The shape of every successful `delete_local`: the path is erased
from both maps and from the file list, and the directory list is either
untouched or loses exactly the parent directory. -/
theorem delete_local_ok (st0 : DropboxState) (fs0 : FS) (p : String)
    (st1 : DropboxState) (fs1 : FS)
    (h : delete_local st0 fs0 p = .ok (st1, fs1)) :
    st1.local_files = delAll st0.local_files p ∧
    st1.remote_files = delAll st0.remote_files p ∧
    fs1.files = removeAll fs0.files p ∧
    (fs1.dirs = fs0.dirs ∨ fs1.dirs = removeAll fs0.dirs (parentDir p)) := by
  unfold delete_local at h
  dsimp only at h
  split at h
  · split at h
    · split at h
      · split at h
        · split at h
          · split at h
            · exact absurd h (by simp)
            · rcases ok_pair_inj h with ⟨hst, hfs⟩
              subst hst
              subst hfs
              exact ⟨rfl, rfl, rfl, Or.inr rfl⟩
          · rcases ok_pair_inj h with ⟨hst, hfs⟩
            subst hst
            subst hfs
            exact ⟨rfl, rfl, rfl, Or.inl rfl⟩
        · exact absurd h (by simp)
      · rcases ok_pair_inj h with ⟨hst, hfs⟩
        subst hst
        subst hfs
        exact ⟨rfl, rfl, rfl, Or.inl rfl⟩
    · exact absurd h (by simp)
  · exact absurd h (by simp)

/-- When the parent directory exists and is empty once the file is
gone, a successful `delete_local` removes it. -/
theorem delete_local_removes_empty_parent (st0 : DropboxState) (fs0 : FS) (p : String)
    (st1 : DropboxState) (fs1 : FS)
    (hdel : delete_local st0 fs0 p = .ok (st1, fs1))
    (hpd : parentDir p ∈ fs0.dirs)
    (hempty :
      (listdirFS { fs0 with files := removeAll fs0.files p } (parentDir p)).isEmpty = true) :
    parentDir p ∉ fs1.dirs := by
  unfold delete_local at hdel
  dsimp only at hdel
  by_cases h1 : containsKey st0.local_files p = true
  · rw [if_pos h1] at hdel
    by_cases h2 : containsKey st0.remote_files p = true
    · rw [if_pos h2] at hdel
      have hex : fsExists { fs0 with files := removeAll fs0.files p } (parentDir p) :=
        Or.inr hpd
      rw [if_pos hex, if_pos hpd, if_pos hempty] at hdel
      by_cases h3 : parentDir p = "."
      · rw [if_pos h3] at hdel
        exact absurd hdel (by simp)
      · rw [if_neg h3] at hdel
        rcases ok_pair_inj hdel with ⟨_, hfs⟩
        subst hfs
        exact not_mem_removeAll _ _
    · rw [if_neg h2] at hdel
      exact absurd hdel (by simp)
  · rw [if_neg h1] at hdel
    exact absurd hdel (by simp)

/-- `delete_local` removes at most the parent directory: every other
directory survives. -/
theorem delete_local_dirs_superset (st0 : DropboxState) (fs0 : FS) (p : String)
    (st1 : DropboxState) (fs1 : FS)
    (hdel : delete_local st0 fs0 p = .ok (st1, fs1)) :
    ∀ d ∈ fs0.dirs, d ≠ parentDir p → d ∈ fs1.dirs := by
  intro d hd hne
  rcases (delete_local_ok st0 fs0 p st1 fs1 hdel).2.2.2 with hdirs | hdirs
  · rw [hdirs]
    exact hd
  · rw [hdirs]
    exact mem_removeAll_of_ne _ _ _ hne hd

/-- A missing file is not an error: `delete_local` behaves identically
whether or not the file is still on disk. -/
theorem delete_local_missing_file (st0 : DropboxState) (fs0 : FS) (p : String) :
    delete_local st0 { fs0 with files := removeAll fs0.files p } p
      = delete_local st0 fs0 p := by
  unfold delete_local
  dsimp only
  rw [removeAll_idem]

/-- A successful deletion-phase run never resurrects a map entry or a
file. -/
theorem deletePhaseAux_mono (cur : List String) :
    ∀ (keys : List String) (st : DropboxState) (fs : FS) (st' : DropboxState) (fs' : FS),
      deletePhaseAux cur keys st fs = .ok (st', fs') →
      ∀ p, (lookupKey st.local_files p = none → lookupKey st'.local_files p = none) ∧
        (lookupKey st.remote_files p = none → lookupKey st'.remote_files p = none) ∧
        (p ∉ fs.files → p ∉ fs'.files) := by
  intro keys
  induction keys with
  | nil =>
    intro st fs st' fs' h p
    unfold deletePhaseAux at h
    rcases ok_pair_inj h with ⟨hst, hfs⟩
    subst hst
    subst hfs
    exact ⟨id, id, id⟩
  | cons k rest ih =>
    intro st fs st' fs' h p
    unfold deletePhaseAux at h
    split at h
    · exact ih st fs st' fs' h p
    · split at h
      · cases hdel : delete_local st fs k with
        | error e =>
          rw [hdel] at h
          exact absurd h (by simp)
        | ok out =>
          obtain ⟨stm, fsm⟩ := out
          rw [hdel] at h
          dsimp only at h
          have hfacts := delete_local_ok st fs k stm fsm hdel
          have hrest := ih stm fsm st' fs' h p
          refine ⟨?_, ?_, ?_⟩
          · intro hnone
            exact hrest.1 (by rw [hfacts.1]; exact lookupKey_delAll_none _ _ _ hnone)
          · intro hnone
            exact hrest.2.1 (by rw [hfacts.2.1]; exact lookupKey_delAll_none _ _ _ hnone)
          · intro hnf
            refine hrest.2.2 ?_
            rw [hfacts.2.2.1]
            intro hmem
            exact hnf (mem_of_mem_removeAll _ _ _ hmem)
      · exact ih st fs st' fs' h p



/-- Once the deletion loop reaches a path that is absent from the
current listing and tracked locally, that path is deleted and stays
deleted. -/
theorem deletePhaseAux_deletes (cur : List String) (path : String) (hcur : path ∉ cur) :
    ∀ (keys : List String) (st : DropboxState) (fs : FS) (st' : DropboxState) (fs' : FS),
      deletePhaseAux cur keys st fs = .ok (st', fs') →
      path ∈ keys →
      containsKey st.local_files path = true →
      lookupKey st'.local_files path = none ∧
      lookupKey st'.remote_files path = none ∧
      path ∉ fs'.files := by
  intro keys
  induction keys with
  | nil =>
    intro st fs st' fs' _ hmem _
    simp at hmem
  | cons k rest ih =>
    intro st fs st' fs' h hmem hl
    unfold deletePhaseAux at h
    by_cases hk : k = path
    · subst hk
      rw [if_neg hcur, if_pos hl] at h
      cases hdel : delete_local st fs k with
      | error e =>
        rw [hdel] at h
        exact absurd h (by simp)
      | ok out =>
        obtain ⟨stm, fsm⟩ := out
        rw [hdel] at h
        dsimp only at h
        have hfacts := delete_local_ok st fs k stm fsm hdel
        have hmono := deletePhaseAux_mono cur rest stm fsm st' fs' h k
        refine ⟨?_, ?_, ?_⟩
        · exact hmono.1 (by rw [hfacts.1]; exact lookupKey_delAll_self _ _)
        · exact hmono.2.1 (by rw [hfacts.2.1]; exact lookupKey_delAll_self _ _)
        · exact hmono.2.2 (by rw [hfacts.2.2.1]; exact not_mem_removeAll _ _)
    · have hmem' : path ∈ rest := by
        rcases List.mem_cons.mp hmem with hh | hh
        · exact absurd hh.symm hk
        · exact hh
      split at h
      · exact ih st fs st' fs' h hmem' hl
      · split at h
        · cases hdel : delete_local st fs k with
          | error e =>
            rw [hdel] at h
            exact absurd h (by simp)
          | ok out =>
            obtain ⟨stm, fsm⟩ := out
            rw [hdel] at h
            dsimp only at h
            have hfacts := delete_local_ok st fs k stm fsm hdel
            have hl' : containsKey stm.local_files path = true := by
              unfold containsKey at hl ⊢
              rw [hfacts.1, lookupKey_delAll_ne _ _ _ (fun hh => hk hh.symm)]
              exact hl
            exact ih stm fsm st' fs' h hmem' hl'
        · exact ih st fs st' fs' h hmem' hl

/-- C1 (amended): after the remote pass consumes all listing pages,
every path present in `remote_files` *and in `local_files`* but absent
from the current remote listing is deleted locally: its record is
dropped from both maps and the file is removed from disk; moreover
each individual `delete_local` removes the file (a missing file is not
an error: the on-disk presence of the file does not change the
outcome), removes the parent directory exactly when it exists and is
empty after the file removal, and removes no other directory (one
level only). -/
theorem remote_deletion_propagation (cur : List String) (st st' : DropboxState)
    (fs fs' : FS) (path : String)
    (hr : containsKey st.remote_files path = true)
    (hcur : path ∉ cur)
    (hl : containsKey st.local_files path = true)
    (hrun : deletePhase cur st fs = .ok (st', fs')) :
    lookupKey st'.local_files path = none ∧
    lookupKey st'.remote_files path = none ∧
    path ∉ fs'.files ∧
    (∀ (st0 : DropboxState) (fs0 : FS) (p : String) (st1 : DropboxState) (fs1 : FS),
      delete_local st0 fs0 p = .ok (st1, fs1) →
        p ∉ fs1.files ∧
        (parentDir p ∈ fs0.dirs →
          (listdirFS { fs0 with files := removeAll fs0.files p }
              (parentDir p)).isEmpty = true →
          parentDir p ∉ fs1.dirs) ∧
        (∀ d ∈ fs0.dirs, d ≠ parentDir p → d ∈ fs1.dirs)) ∧
    (∀ (st0 : DropboxState) (fs0 : FS) (p : String),
      delete_local st0 { fs0 with files := removeAll fs0.files p } p
        = delete_local st0 fs0 p) := by
  unfold deletePhase at hrun
  have hmem : path ∈ keysOf st.remote_files := containsKey_mem_keysOf _ _ hr
  have hmain := deletePhaseAux_deletes cur path hcur (keysOf st.remote_files) st fs st' fs'
    hrun hmem hl
  refine ⟨hmain.1, hmain.2.1, hmain.2.2, ?_, delete_local_missing_file⟩
  intro st0 fs0 p st1 fs1 hdel
  refine ⟨?_, ?_, delete_local_dirs_superset st0 fs0 p st1 fs1 hdel⟩
  · rw [(delete_local_ok st0 fs0 p st1 fs1 hdel).2.2.1]
    exact not_mem_removeAll _ _
  · intro hpd hempty
    exact delete_local_removes_empty_parent st0 fs0 p st1 fs1 hdel hpd hempty

/-- Witness for C1 (amended) at a concrete two-file tree where `a` was
deleted remotely. -/
theorem remote_deletion_propagation_witness :
    lookupKey (emptyState).local_files "a" = none ∧
    lookupKey (emptyState).remote_files "a" = none ∧
    "a" ∉ (⟨["b"], ["."]⟩ : FS).files ∧
    (∀ (st0 : DropboxState) (fs0 : FS) (p : String) (st1 : DropboxState) (fs1 : FS),
      delete_local st0 fs0 p = .ok (st1, fs1) →
        p ∉ fs1.files ∧
        (parentDir p ∈ fs0.dirs →
          (listdirFS { fs0 with files := removeAll fs0.files p }
              (parentDir p)).isEmpty = true →
          parentDir p ∉ fs1.dirs) ∧
        (∀ d ∈ fs0.dirs, d ≠ parentDir p → d ∈ fs1.dirs)) ∧
    (∀ (st0 : DropboxState) (fs0 : FS) (p : String),
      delete_local st0 { fs0 with files := removeAll fs0.files p } p
        = delete_local st0 fs0 p) :=
  remote_deletion_propagation []
    { emptyState with local_files := [("a", recR1)], remote_files := [("a", recR1)] }
    emptyState ⟨["a", "b"], ["."]⟩ ⟨["b"], ["."]⟩ "a"
    (by decide) (by decide) (by decide) (by decide)

end Synchronator
